import Mathlib

/-
Verification of the LCR-6300 sweep-file parser and batch loader
(`analysis.py`).  The Python code is shallowly embedded: text is
modelled as `List Char`, Python floats as exact rationals `ℚ`, and the
exception-based control flow as `Except`.  Each definition carries a
reference to the source construct it embeds.

Scope notes on the float model: `parsePyFloat` models Python's
`float(str)` on finite decimal and scientific-notation literals
(optional surrounding whitespace, optional sign, optional fractional
part, optional exponent).  Non-finite literals (`inf`, `nan`) and
digit-group underscores are outside the rational embedding; no claim
depends on them.  Python's Unicode-aware `str.isdigit` and `str.strip`
are modelled with `Char.isDigit` and `Char.isWhitespace`, which agree
with them on all ASCII text (the instrument's output format).
-/

namespace LCR

/-- A Python string, modelled as its list of characters. -/
abbrev Str := List Char

/-- Python `str.strip()`: remove leading and trailing whitespace. -/
def pyStrip (s : Str) : Str :=
  ((s.dropWhile Char.isWhitespace).reverse.dropWhile Char.isWhitespace).reverse

/-- Python `str.strip('"')`: remove leading and trailing quote characters. -/
def stripQuotes (s : Str) : Str :=
  ((s.dropWhile (· == '"')).reverse.dropWhile (· == '"')).reverse

/-- Source `c.strip().strip('"')` (lines 87 and 93 of analysis.py). -/
def cleanField (s : Str) : Str := stripQuotes (pyStrip s)

/-- Python `str.split(sep)` for a one-character separator: `"".split(',') = ['']`,
separators delimit possibly empty fields. -/
def pySplit (sep : Char) : Str → List Str
  | [] => [[]]
  | c :: rest =>
    if c == sep then [] :: pySplit sep rest
    else
      match pySplit sep rest with
      | [] => [[c]]
      | g :: gs => (c :: g) :: gs

/-- Python `needle in hay` (substring containment test, line 61):
some suffix of `hay` has `needle` as a prefix. -/
def containsSub (needle : Str) : Str → Bool
  | [] => needle.isPrefixOf []
  | h :: t => needle.isPrefixOf (h :: t) || containsSub needle t

/-- Loop of lines 59-63: scan at most `fuel` lines, returning the index
(offset by `i`) of the first line containing `col_name`. -/
def findHeaderAux (col_name : Str) : ℕ → ℕ → List Str → Option ℕ
  | 0, _, _ => none
  | _, _, [] => none
  | fuel + 1, i, ln :: rest =>
    if containsSub col_name ln then some i else findHeaderAux col_name fuel (i + 1) rest

/-- Lines 59-63: `for i, ln in enumerate(lines[:40]): if col_name in ln: header_idx = i; break`. -/
def findHeader (lines : List Str) (col_name : Str) : Option ℕ :=
  findHeaderAux col_name 40 0 lines

/-- Lines 66-79: collect candidate data lines.  With a header: non-blank
lines after it whose first stripped character is `+`, a digit or `-`.
Without: lines whose stripped form starts with `+`. -/
def collectData (lines : List Str) (header_idx : Option ℕ) : List Str :=
  match header_idx with
  | some h =>
    (lines.drop (h + 1)).foldl
      (fun acc ln =>
        if (pyStrip ln).isEmpty then acc
        else
          let first := (pyStrip ln).headD ' '
          if first == '+' || first.isDigit || first == '-' then acc ++ [ln] else acc)
      []
  | none =>
    lines.foldl (fun acc ln => if List.isPrefixOf ['+'] (pyStrip ln) then acc ++ [ln] else acc) []

/-- Lines 84-89: the extracted column index.  If a header exists and
`col_name` appears exactly among its comma-split cleaned fields, its
(first) position; otherwise `fallback_col_index`. -/
def decideCol (lines : List Str) (header_idx : Option ℕ) (col_name : Str)
    (fallback_col_index : ℕ) : ℕ :=
  match header_idx with
  | none => fallback_col_index
  | some h =>
    let cols := (pySplit ',' (lines.getD h [])).map cleanField
    if col_name ∈ cols then cols.indexOf col_name else fallback_col_index

/-- Longest prefix satisfying `p`, together with the rest. -/
def pySpan (p : Char → Bool) : Str → Str × Str
  | [] => ([], [])
  | c :: rest =>
    if p c then
      let s := pySpan p rest
      (c :: s.1, s.2)
    else ([], c :: rest)

/-- Numeric value of a digit string (most significant first). -/
def digitsVal (l : Str) : ℕ := l.foldl (fun a c => 10 * a + (c.toNat - 48)) 0

/-- A nonempty all-digit string, as a natural number. -/
def parseDigits (l : Str) : Option ℕ :=
  if l.isEmpty then none else if l.all Char.isDigit then some (digitsVal l) else none

/-- Mantissa of a float literal: `digits`, `digits.digits`, `digits.` or `.digits`. -/
def parseMantissa (l : Str) : Option ℚ :=
  match pySpan (fun c => c != '.') l with
  | (ip, []) => (parseDigits ip).map (fun n => (n : ℚ))
  | (ip, _ :: fp) =>
    if fp.contains '.' then none
    else if ip.isEmpty && fp.isEmpty then none
    else if ip.all Char.isDigit && fp.all Char.isDigit then
      some ((digitsVal ip : ℚ) + (digitsVal fp : ℚ) / 10 ^ fp.length)
    else none

/-- Exponent of a float literal: optionally signed nonempty digit string. -/
def parseExp (l : Str) : Option ℤ :=
  match l with
  | '+' :: r => (parseDigits r).map (fun n => (n : ℤ))
  | '-' :: r => (parseDigits r).map (fun n => -(n : ℤ))
  | r => (parseDigits r).map (fun n => (n : ℤ))

/-- Multiply by a signed power of ten. -/
def applyExp (q : ℚ) (e : ℤ) : ℚ :=
  match e with
  | .ofNat n => q * 10 ^ n
  | .negSucc n => q / 10 ^ (n + 1)

/-- Python `float(str)` on finite decimal / scientific literals:
strip whitespace, optional sign, mantissa, optional `e`/`E` exponent. -/
def parsePyFloat (s : Str) : Option ℚ :=
  let t := pyStrip s
  let signed : Bool × Str :=
    match t with
    | '+' :: r => (false, r)
    | '-' :: r => (true, r)
    | r => (false, r)
  let q? : Option ℚ :=
    match pySpan (fun c => !(c == 'e' || c == 'E')) signed.2 with
    | (mant, []) => parseMantissa mant
    | (mant, _ :: ex) =>
      match parseMantissa mant, parseExp ex with
      | some m, some e => some (applyExp m e)
      | _, _ => none
  q?.map (fun q => if signed.1 then -q else q)

/-- Python `valstr.replace('+', '')` (line 102): remove every `+`. -/
def removePlus (s : Str) : Str := s.filter (fun c => c != '+')

/-- Body of the loop of lines 92-105, for one candidate data line:
split on commas, clean each field, skip if too few fields, else parse
the target field as a float, retrying once with all `+` removed. -/
def lineValue (col_index : ℕ) (ln : Str) : Option ℚ :=
  let parts := (pySplit ',' ln).map cleanField
  if parts.length ≤ col_index then none
  else
    let valstr := parts.getD col_index []
    match parsePyFloat valstr with
    | some v => some v
    | none => parsePyFloat (removePlus valstr)

/-- Lines 91-105: the `values` list accumulated over all candidate data lines. -/
def extractValues (data_lines : List Str) (col_index : ℕ) : List ℚ :=
  data_lines.foldl
    (fun acc ln =>
      match lineValue col_index ln with
      | some v => acc ++ [v]
      | none => acc)
    []

/-- Python exception classes raised by the parser. -/
inductive ExcType where
  | valueError
  | fileNotFoundError
deriving DecidableEq

/-- A raised Python exception: its class and its message. -/
structure PyExc where
  ty : ExcType
  msg : String
deriving DecidableEq

/-- Message of line 82. -/
def noDataMsg (fname : String) : String := "No data lines found in " ++ fname

/-- Message of line 108. -/
def noNumericMsg (fname : String) : String := "No numeric impedance values parsed in " ++ fname

/-- Message of line 117. -/
def reshapeMsg (fname : String) (len num_freq : ℕ) : String :=
  "Not enough rows to reshape for " ++ fname ++ " (len=" ++ toString len ++
    ", num_freq=" ++ toString num_freq ++ ")"

/-- Lines 118-120: truncate to `ncols * num_freq` values, reshape row-major
into `(ncols, num_freq)`, transpose to `(num_freq, ncols)`, average each row
and scale.  Row `j` of the transpose is `values[i * num_freq + j]` for `i < ncols`. -/
def reshapeAvg (values : List ℚ) (ncols num_freq : ℕ) (scale : ℚ) : List ℚ :=
  let truncated := values.take (ncols * num_freq)
  (List.range num_freq).map
    (fun j =>
      ((List.range ncols).map (fun i => truncated.getD (i * num_freq + j) 0)).sum / (ncols : ℚ)
        * scale)

/-- The parser `read_lcr_csv_lcr6300` (lines 45-121).  `fname` is
`path.name`, `fileExists` models `path.exists()`, `lines` the list of
newline-stripped lines of the file. -/
def read_lcr_csv_lcr6300 (fname : String) (fileExists : Bool) (lines : List Str)
    (num_freq : ℕ) (trim_first_n : Option ℕ) (col_name : Str)
    (fallback_col_index : ℕ) (scale : ℚ) : Except PyExc (List ℚ) :=
  if fileExists = false then .error ⟨.fileNotFoundError, fname⟩
  else
    let header_idx := findHeader lines col_name
    let data_lines := collectData lines header_idx
    if data_lines.isEmpty then .error ⟨.valueError, noDataMsg fname⟩
    else
      let col_index := decideCol lines header_idx col_name fallback_col_index
      let values := extractValues data_lines col_index
      if values.isEmpty then .error ⟨.valueError, noNumericMsg fname⟩
      else
        let ncols := values.length / num_freq
        if ncols = 0 then
          let values2 := match trim_first_n with
            | some n => values.take n
            | none => values
          let ncols2 := values2.length / num_freq
          if ncols2 = 0 then .error ⟨.valueError, reshapeMsg fname values2.length num_freq⟩
          else .ok (reshapeAvg values2 ncols2 num_freq scale)
        else .ok (reshapeAvg values ncols num_freq scale)

/-- Line 26: `freq = np.arange(10, 101, 10)`. -/
def freq : List ℚ := (List.range 10).map (fun i => 10 + 10 * (i : ℚ))

/-- Line 139: `base = 20 + 0.3 * freq` (numpy elementwise broadcast). -/
def base : List ℚ := freq.map (fun f => 20 + 0.3 * f)

/-- Lines 140-144: the synthetic placeholder mapping. -/
def demoLoaded : List (String × List ℚ) :=
  [("demo_baseline", base),
   ("demo_postwash", base.map (fun x => x * 1.25)),
   ("demo_hydrogel", base.map (fun x => x * 0.9))]

/-- One configured input file of the batch loop: its name and, when the
file exists, its lines (`none` models a missing file). -/
structure FileEntry where
  name : String
  content : Option (List Str)

/-- Lines 124-135: the batch loop over `TO_LOAD`: skip missing files,
parse existing ones with `num_freq=10, trim_first_n=100,
col_name='Z(OHM)', fallback_col_index=2, scale=1e-3`, keep successes,
log-and-continue on every exception. -/
def batchLoad (files : List FileEntry) : List (String × List ℚ) :=
  files.foldl
    (fun acc fe =>
      match fe.content with
      | none => acc
      | some lines =>
        match read_lcr_csv_lcr6300 fe.name true lines 10 (some 100) "Z(OHM)".data 2
            (1 / 1000) with
        | .ok v => acc ++ [(fe.name, v)]
        | .error _ => acc)
    []

/-- Lines 137-144: the final `loaded` mapping, replaced by the synthetic
placeholder set when empty. -/
def loaded (files : List FileEntry) : List (String × List ℚ) :=
  if batchLoad files = [] then demoLoaded else batchLoad files

/-
Helper lemmas relating the loop-shaped definitions to their
declarative counterparts.
-/

theorem foldl_push_filter (p : α → Bool) (l acc : List α) :
    l.foldl (fun a x => if p x then a ++ [x] else a) acc = acc ++ l.filter p := by
  induction l generalizing acc with
  | nil => simp
  | cons x xs ih =>
    by_cases h : p x <;> simp [h, ih, List.filter_cons]

/-- The predicate of the header-mode candidate test: the stripped line is
nonempty and its first character is `+`, a digit, or `-`. -/
def isDataLine (ln : Str) : Bool :=
  !(pyStrip ln).isEmpty &&
    ((pyStrip ln).headD ' ' == '+' || ((pyStrip ln).headD ' ').isDigit
      || (pyStrip ln).headD ' ' == '-')

theorem collectData_some_eq_filter (lines : List Str) (h : ℕ) :
    collectData lines (some h) = (lines.drop (h + 1)).filter isDataLine := by
  have hstep :
      (fun (acc : List Str) ln =>
          if (pyStrip ln).isEmpty then acc
          else
            let first := (pyStrip ln).headD ' '
            if first == '+' || first.isDigit || first == '-' then acc ++ [ln] else acc)
        = fun (acc : List Str) ln => if isDataLine ln then acc ++ [ln] else acc := by
    funext acc ln
    by_cases h1 : (pyStrip ln).isEmpty <;> simp [h1, isDataLine]
  rw [collectData, hstep, foldl_push_filter, List.nil_append]

theorem collectData_none_eq_filter (lines : List Str) :
    collectData lines none = lines.filter (fun ln => List.isPrefixOf ['+'] (pyStrip ln)) := by
  rw [collectData, foldl_push_filter, List.nil_append]

theorem extractValues_eq_filterMap (data_lines : List Str) (ci : ℕ) :
    extractValues data_lines ci = data_lines.filterMap (lineValue ci) := by
  induction data_lines using List.reverseRecOn with
  | nil => rfl
  | append_singleton l x ih =>
    have hl : extractValues (l ++ [x]) ci
        = match lineValue ci x with
          | some v => extractValues l ci ++ [v]
          | none => extractValues l ci := by
      simp only [extractValues, List.foldl_append, List.foldl_cons, List.foldl_nil]
    rw [hl, ih]
    cases hfx : lineValue ci x <;> simp [hfx, List.filterMap_append]

theorem reshapeAvg_length (v : List ℚ) (nc nf : ℕ) (s : ℚ) :
    (reshapeAvg v nc nf s).length = nf := by
  simp [reshapeAvg]

theorem reshapeAvg_getD (v : List ℚ) (nc nf : ℕ) (s : ℚ) (j : ℕ) (hj : j < nf) :
    (reshapeAvg v nc nf s).getD j 0 =
      ((List.range nc).map (fun i => (v.take (nc * nf)).getD (i * nf + j) 0)).sum / (nc : ℚ)
        * s := by
  simp [reshapeAvg, List.getD_eq_getElem?_getD, List.getElem?_map, List.getElem?_range hj]

/-
Claim theorems.
-/

/-- C2: whenever the parser returns successfully, the returned vector has
length exactly `num_freq`, regardless of how many values were extracted
or discarded. -/
theorem c2_success_length (fname : String) (fileExists : Bool) (lines : List Str)
    (num_freq : ℕ) (trim : Option ℕ) (cn : Str) (fci : ℕ) (scale : ℚ) (w : List ℚ)
    (h : read_lcr_csv_lcr6300 fname fileExists lines num_freq trim cn fci scale = .ok w) :
    w.length = num_freq := by
  simp only [read_lcr_csv_lcr6300] at h
  split at h
  · exact absurd h (by simp)
  · split at h
    · exact absurd h (by simp)
    · split at h
      · exact absurd h (by simp)
      · split at h
        · split at h
          · exact absurd h (by simp)
          · rw [Except.ok.injEq] at h
            subst h
            exact reshapeAvg_length _ _ _ _
        · rw [Except.ok.injEq] at h
          subst h
          exact reshapeAvg_length _ _ _ _

/-- C2 witness: a concrete successful parse has a vector of length 1. -/
theorem c2_witness : (([7] : List ℚ)).length = 1 :=
  c2_success_length "f.csv" true ["Z(OHM),A,B".data, "+7".data] 1 none "Z(OHM)".data 2 1 [7]
    (by
      have h1 : collectData ["Z(OHM),A,B".data, "+7".data]
          (findHeader ["Z(OHM),A,B".data, "+7".data] "Z(OHM)".data) = ["+7".data] := by decide
      have h2 : decideCol ["Z(OHM),A,B".data, "+7".data]
          (findHeader ["Z(OHM),A,B".data, "+7".data] "Z(OHM)".data) "Z(OHM)".data 2 = 0 := by
        decide
      have h3 : extractValues ["+7".data] 0 = [7] := by
        simp +decide [extractValues, lineValue, parsePyFloat, parseMantissa, parseDigits,
          digitsVal, pySpan, pyStrip]
      simp only [read_lcr_csv_lcr6300, h1, h2, h3]
      norm_num [reshapeAvg, List.range_succ])

/-- C3: with a header at index `h`, the candidate set is exactly the
non-blank lines after the header whose first stripped character is `+`,
a digit or `-`; without a header it is exactly the lines that start with
`+` after stripping, so in particular every no-header candidate starts
with `+` (lines starting with a digit or `-` are not candidates). -/
theorem c3_candidate_data_lines (lines : List Str) :
    (∀ h : ℕ, collectData lines (some h) = (lines.drop (h + 1)).filter isDataLine)
      ∧ collectData lines none
          = lines.filter (fun ln => List.isPrefixOf ['+'] (pyStrip ln))
      ∧ ∀ ln ∈ collectData lines none, List.isPrefixOf ['+'] (pyStrip ln) = true := by
  refine ⟨fun h => collectData_some_eq_filter lines h, collectData_none_eq_filter lines, ?_⟩
  intro ln hln
  rw [collectData_none_eq_filter] at hln
  exact (List.mem_filter.mp hln).2

/-- C3 witness: in no-header mode a concrete candidate line starts with `+`. -/
theorem c3_witness : List.isPrefixOf ['+'] (pyStrip "+1,2".data) = true :=
  (c3_candidate_data_lines ["hdr".data, "+1,2".data, "-3".data]).2.2 "+1,2".data (by decide)

theorem containsSub_correct (n : Str) (h : Str) : containsSub n h = true ↔ n <:+: h := by
  induction h with
  | nil => simp [containsSub, List.isPrefixOf_iff_prefix]
  | cons c t ih =>
    simp [containsSub, List.isPrefixOf_iff_prefix, ih, List.infix_cons_iff]

theorem findHeaderAux_eq_findIdx (cn : Str) :
    ∀ (fuel i : ℕ) (ls : List Str),
      findHeaderAux cn fuel i ls = (ls.take fuel).findIdx? (fun ln => containsSub cn ln) i := by
  intro fuel
  induction fuel with
  | zero => intro i ls; simp [findHeaderAux]
  | succ f ih =>
    intro i ls
    cases ls with
    | nil => simp [findHeaderAux]
    | cons x xs =>
      by_cases hx : containsSub cn x <;>
        simp [findHeaderAux, hx, List.findIdx?_cons, ih (i + 1) xs]

theorem findHeader_eq_findIdx (lines : List Str) (cn : Str) :
    findHeader lines cn = (lines.take 40).findIdx? (fun ln => containsSub cn ln) :=
  findHeaderAux_eq_findIdx cn 40 0 lines

/-- C4: the header location is the first of the first 40 lines containing
`column_label` as a literal substring, absent when none does; the column
index is the first position of `column_label` among the header's cleaned
comma-split fields when there is an exact match, and
`fallback_column_index` in every other case. -/
theorem c4_header_location_and_column (lines : List Str) (cn : Str) (fci : ℕ) :
    (∀ h : ℕ, findHeader lines cn = some h ↔
        h < (lines.take 40).length ∧ cn <:+: (lines.take 40).getD h []
          ∧ ∀ j < h, ¬ cn <:+: (lines.take 40).getD j [])
  ∧ (findHeader lines cn = none ↔ ∀ ln ∈ lines.take 40, ¬ cn <:+: ln)
  ∧ (∀ h : ℕ, cn ∈ (pySplit ',' (lines.getD h [])).map cleanField →
      ((pySplit ',' (lines.getD h [])).map cleanField).getD
          (decideCol lines (some h) cn fci) [] = cn
        ∧ ∀ j < decideCol lines (some h) cn fci,
            ((pySplit ',' (lines.getD h [])).map cleanField).getD j [] ≠ cn)
  ∧ (∀ h : ℕ, cn ∉ (pySplit ',' (lines.getD h [])).map cleanField →
      decideCol lines (some h) cn fci = fci)
  ∧ decideCol lines none cn fci = fci := by
  refine ⟨?_, ?_, ?_, ?_, rfl⟩
  · intro h
    rw [findHeader_eq_findIdx, List.findIdx?_eq_some_iff_getElem]
    constructor
    · rintro ⟨hlt, hp, hmin⟩
      refine ⟨hlt, ?_, ?_⟩
      · rw [List.getD_eq_getElem _ _ hlt]
        exact (containsSub_correct _ _).mp hp
      · intro j hj hinf
        rw [List.getD_eq_getElem _ _ (Nat.lt_trans hj hlt)] at hinf
        exact hmin j hj ((containsSub_correct _ _).mpr hinf)
    · rintro ⟨hlt, hp, hmin⟩
      refine ⟨hlt, ?_, ?_⟩
      · rw [List.getD_eq_getElem _ _ hlt] at hp
        exact (containsSub_correct _ _).mpr hp
      · intro j hj hc
        refine hmin j hj ?_
        rw [List.getD_eq_getElem _ _ (Nat.lt_trans hj hlt)]
        exact (containsSub_correct _ _).mp hc
  · rw [findHeader_eq_findIdx, List.findIdx?_eq_none_iff]
    constructor
    · intro hall ln hln hinf
      have := hall ln hln
      rw [(containsSub_correct _ _).mpr hinf] at this
      exact Bool.true_eq_false.mp this
    · intro hall ln hln
      by_cases hc : containsSub cn ln
      · exact absurd ((containsSub_correct _ _).mp hc) (hall ln hln)
      · simpa using hc
  · intro h hmem
    have hdef : decideCol lines (some h) cn fci
        = if cn ∈ (pySplit ',' (lines.getD h [])).map cleanField then
            ((pySplit ',' (lines.getD h [])).map cleanField).indexOf cn
          else fci := rfl
    have hcols : decideCol lines (some h) cn fci
        = ((pySplit ',' (lines.getD h [])).map cleanField).indexOf cn := by
      rw [hdef, if_pos hmem]
    set cols := (pySplit ',' (lines.getD h [])).map cleanField with hc
    have hex : ∃ x ∈ cols, (x == cn) = true := ⟨cn, hmem, by simp⟩
    have hlt : cols.findIdx (· == cn) < cols.length := List.findIdx_lt_length_of_exists hex
    have hidx : cols.indexOf cn = cols.findIdx (· == cn) := rfl
    refine ⟨?_, ?_⟩
    · rw [hcols, hidx, List.getD_eq_getElem _ _ hlt]
      have := @List.findIdx_getElem _ (· == cn) cols hlt
      exact eq_of_beq this
    · intro j hj hgd
      rw [hcols, hidx] at hj
      have hjlt : j < cols.length := Nat.lt_trans hj hlt
      have := @List.not_of_lt_findIdx _ (· == cn) cols j hj
      rw [List.getD_eq_getElem _ _ hjlt] at hgd
      rw [hgd] at this
      simp at this
  · intro h hmem
    have hdef : decideCol lines (some h) cn fci
        = if cn ∈ (pySplit ',' (lines.getD h [])).map cleanField then
            ((pySplit ',' (lines.getD h [])).map cleanField).indexOf cn
          else fci := rfl
    rw [hdef, if_neg hmem]

/-- C4 witness: on a concrete file, the header is located on line 1 and
the column index is the position of the label among the header fields. -/
theorem c4_witness :
    findHeader ["preamble".data, "A,Z(OHM),B".data, "+1".data] "Z(OHM)".data = some 1 ↔
      1 < (["preamble".data, "A,Z(OHM),B".data, "+1".data].take 40).length
        ∧ "Z(OHM)".data <:+:
            (["preamble".data, "A,Z(OHM),B".data, "+1".data].take 40).getD 1 []
        ∧ ∀ j < 1, ¬ "Z(OHM)".data <:+:
            (["preamble".data, "A,Z(OHM),B".data, "+1".data].take 40).getD j [] :=
  (c4_header_location_and_column ["preamble".data, "A,Z(OHM),B".data, "+1".data]
    "Z(OHM)".data 2).1 1

/-- C1: when the extracted value sequence has length exactly `k * num_freq`
with `k ≥ 1` and `num_freq > 0`, the parse succeeds and returns the
per-frequency means across the `k` repeat blocks, scaled by `scale`. -/
theorem c1_full_blocks_average (fname : String) (lines : List Str) (num_freq k : ℕ)
    (trim : Option ℕ) (cn : Str) (fci : ℕ) (scale : ℚ) (v : List ℚ)
    (hv : extractValues (collectData lines (findHeader lines cn))
        (decideCol lines (findHeader lines cn) cn fci) = v)
    (hlen : v.length = k * num_freq) (hk : 1 ≤ k) (hnf : 0 < num_freq) :
    ∃ w, read_lcr_csv_lcr6300 fname true lines num_freq trim cn fci scale = .ok w
      ∧ w.length = num_freq
      ∧ ∀ j < num_freq, w.getD j 0
          = scale * (((List.range k).map (fun i => v.getD (i * num_freq + j) 0)).sum
              / (k : ℚ)) := by
  have hvne : v ≠ [] := by
    intro h0
    rw [h0] at hlen
    have := Nat.mul_pos hk hnf
    simp at hlen
    omega
  have hdl : collectData lines (findHeader lines cn) ≠ [] := by
    intro h0
    rw [h0] at hv
    exact hvne (hv ▸ rfl)
  have h1 : (collectData lines (findHeader lines cn)).isEmpty = false :=
    List.isEmpty_eq_false.mpr hdl
  have h2 : v.isEmpty = false := List.isEmpty_eq_false.mpr hvne
  have h3 : v.length / num_freq = k := by
    rw [hlen]
    exact Nat.mul_div_cancel k hnf
  have hk0 : ¬k = 0 := by omega
  refine ⟨reshapeAvg v k num_freq scale, ?_, reshapeAvg_length _ _ _ _, ?_⟩
  · simp [read_lcr_csv_lcr6300, hv, h1, h2, h3, hk0]
  · intro j hj
    rw [reshapeAvg_getD v k num_freq scale j hj,
      List.take_of_length_le (le_of_eq hlen)]
    ring

/-- C1 witness: a one-block file with one frequency yields its single value. -/
theorem c1_witness :
    ∃ w, read_lcr_csv_lcr6300 "f.csv" true ["Z(OHM),A,B".data, "+7".data] 1 none
        "Z(OHM)".data 2 1 = .ok w
      ∧ w.length = 1
      ∧ ∀ j < 1, w.getD j 0
          = 1 * (((List.range 1).map (fun i => ([7] : List ℚ).getD (i * 1 + j) 0)).sum
              / ((1 : ℕ) : ℚ)) :=
  c1_full_blocks_average "f.csv" ["Z(OHM),A,B".data, "+7".data] 1 1 none "Z(OHM)".data 2 1 [7]
    (by
      have h1 : collectData ["Z(OHM),A,B".data, "+7".data]
          (findHeader ["Z(OHM),A,B".data, "+7".data] "Z(OHM)".data) = ["+7".data] := by decide
      have h2 : decideCol ["Z(OHM),A,B".data, "+7".data]
          (findHeader ["Z(OHM),A,B".data, "+7".data] "Z(OHM)".data) "Z(OHM)".data 2 = 0 := by
        decide
      rw [h1, h2]
      simp +decide [extractValues, lineValue, parsePyFloat, parseMantissa, parseDigits,
        digitsVal, pySpan, pyStrip])
    (by simp) (le_refl 1) (by decide)

/-- C5 counterexample: the claim predicts that a candidate line with
fewer fields than `fallback_column_index + 1` contributes nothing, but
when the header places the target column at index 0 (with
`fallback_column_index = 2`), the one-field line `+7` IS parsed: its
value reaches the output, so the parse returns `[7]` instead of
failing for lack of numeric data. -/
theorem c5_counterexample :
    ((pySplit ',' "+7".data).map cleanField).length < 2 + 1
  ∧ decideCol ["Z(OHM),A,B".data, "+7".data]
      (findHeader ["Z(OHM),A,B".data, "+7".data] "Z(OHM)".data) "Z(OHM)".data 2 = 0
  ∧ lineValue 0 "+7".data = some 7
  ∧ read_lcr_csv_lcr6300 "f.csv" true ["Z(OHM),A,B".data, "+7".data] 1 none
      "Z(OHM)".data 2 1 = .ok [7] := by
  refine ⟨by decide, by decide, ?_, ?_⟩
  · simp +decide [lineValue, parsePyFloat, parseMantissa, parseDigits, digitsVal, pySpan,
      pyStrip]
  · have h1 : collectData ["Z(OHM),A,B".data, "+7".data]
        (findHeader ["Z(OHM),A,B".data, "+7".data] "Z(OHM)".data) = ["+7".data] := by decide
    have h2 : decideCol ["Z(OHM),A,B".data, "+7".data]
        (findHeader ["Z(OHM),A,B".data, "+7".data] "Z(OHM)".data) "Z(OHM)".data 2 = 0 := by
      decide
    have h3 : extractValues ["+7".data] 0 = [7] := by
      simp +decide [extractValues, lineValue, parsePyFloat, parseMantissa, parseDigits,
        digitsVal, pySpan, pyStrip]
    simp only [read_lcr_csv_lcr6300, h1, h2, h3]
    norm_num [reshapeAvg, List.range_succ]

/-- C5 (amended): per candidate line, with `parts` the cleaned
comma-split fields and `ci` the EXTRACTED column index (not necessarily
`fallback_column_index`): a line with fewer than `ci + 1` fields is
skipped silently and contributes nothing; otherwise the field at `ci`
is float-parsed, retried once with every `+` removed, and skipped
silently if both attempts fail; the value sequence is exactly the
per-line results in order. -/
theorem c5_per_line_extraction (ci : ℕ) :
    (∀ data_lines : List Str,
        extractValues data_lines ci = data_lines.filterMap (lineValue ci))
  ∧ (∀ ln : Str, ((pySplit ',' ln).map cleanField).length < ci + 1 →
      lineValue ci ln = none)
  ∧ (∀ ln : Str, ci < ((pySplit ',' ln).map cleanField).length →
      lineValue ci ln =
        (match parsePyFloat (((pySplit ',' ln).map cleanField).getD ci []) with
         | some v => some v
         | none => parsePyFloat (removePlus (((pySplit ',' ln).map cleanField).getD ci []))))
  ∧ (∀ (pre post : List Str) (ln : Str), lineValue ci ln = none →
      extractValues (pre ++ ln :: post) ci = extractValues (pre ++ post) ci) := by
  have hdef : ∀ ln : Str, lineValue ci ln =
      if ((pySplit ',' ln).map cleanField).length ≤ ci then none
      else
        (match parsePyFloat (((pySplit ',' ln).map cleanField).getD ci []) with
         | some v => some v
         | none => parsePyFloat (removePlus (((pySplit ',' ln).map cleanField).getD ci []))) :=
    fun _ => rfl
  refine ⟨fun dl => extractValues_eq_filterMap dl ci, ?_, ?_, ?_⟩
  · intro ln hln
    rw [hdef, if_pos (Nat.lt_succ_iff.mp hln)]
  · intro ln hln
    rw [hdef, if_neg (Nat.not_le.mpr hln)]
  · intro pre post ln hln
    simp [extractValues_eq_filterMap, List.filterMap_append, List.filterMap_cons, hln]

/-- C5 witness: the amended skip rule at a concrete line: with extracted
column index 2, the one-field line `+7` contributes nothing. -/
theorem c5_witness : lineValue 2 "+7".data = none :=
  (c5_per_line_extraction 2).2.1 "+7".data (by decide)

/-- C6: the token `+3.15453E+04` (explicit plus signs, scientific
notation) in the target column parses successfully to 31545.3 before
any scaling. -/
theorem c6_scientific_value :
    parsePyFloat "+3.15453E+04".data = some (31545.3 : ℚ)
  ∧ lineValue 0 "+3.15453E+04".data = some (31545.3 : ℚ) := by
  constructor <;>
    (simp +decide [lineValue, parsePyFloat, parseMantissa, parseDigits, parseExp, applyExp,
       digitsVal, pySpan, pyStrip]
     norm_num)

theorem ne_of_getD_data {s t : String} (i : ℕ)
    (h : s.data.getD i ' ' ≠ t.data.getD i ' ') : s ≠ t :=
  fun he => h (by rw [he])

theorem noData_ne_noNumeric (f g : String) : noDataMsg f ≠ noNumericMsg g := by
  apply ne_of_getD_data 3
  rw [noDataMsg, noNumericMsg, String.data_append, String.data_append,
    List.getD_append _ _ _ _ (by decide), List.getD_append _ _ _ _ (by decide)]
  decide

theorem noData_ne_reshape (f g : String) (l n : ℕ) : noDataMsg f ≠ reshapeMsg g l n := by
  apply ne_of_getD_data 2
  simp only [noDataMsg, reshapeMsg, String.data_append, List.append_assoc]
  rw [List.getD_append _ _ _ _ (by decide), List.getD_append _ _ _ _ (by decide)]
  decide

theorem noNumeric_ne_reshape (f g : String) (l n : ℕ) : noNumericMsg f ≠ reshapeMsg g l n := by
  apply ne_of_getD_data 2
  simp only [noNumericMsg, reshapeMsg, String.data_append, List.append_assoc]
  rw [List.getD_append _ _ _ _ (by decide), List.getD_append _ _ _ _ (by decide)]
  decide

theorem fname_infix_noData (f : String) : f.data <:+: (noDataMsg f).data :=
  ⟨"No data lines found in ".data, [], by simp [noDataMsg, String.data_append]⟩

theorem fname_infix_noNumeric (f : String) : f.data <:+: (noNumericMsg f).data :=
  ⟨"No numeric impedance values parsed in ".data, [], by
    simp [noNumericMsg, String.data_append]⟩

theorem fname_infix_reshape (f : String) (l n : ℕ) : f.data <:+: (reshapeMsg f l n).data :=
  ⟨"Not enough rows to reshape for ".data,
    (" (len=" ++ toString l ++ ", num_freq=" ++ toString n ++ ")").data, by
      simp [reshapeMsg, String.data_append, List.append_assoc]⟩

/-- C7: with `dls` the candidate data lines, `vals` the extracted values
and `vals2` the optionally truncated values, the parse fails with the
no-data ValueError exactly when `dls` is empty; with the no-numeric
ValueError exactly when candidates exist but nothing parsed; with the
reshape ValueError exactly when the parsed values cannot fill one
repeat block even after the optional `trim_first_n` truncation; and in
every failure the message contains the offending file's name. -/
theorem c7_error_taxonomy (fname : String) (lines : List Str) (num_freq : ℕ)
    (trim : Option ℕ) (cn : Str) (fci : ℕ) (scale : ℚ)
    (dls : List Str) (vals vals2 : List ℚ)
    (hdls : collectData lines (findHeader lines cn) = dls)
    (hvals : extractValues dls (decideCol lines (findHeader lines cn) cn fci) = vals)
    (hvals2 : vals2 = (match trim with | some n => vals.take n | none => vals)) :
    (read_lcr_csv_lcr6300 fname true lines num_freq trim cn fci scale
        = .error ⟨.valueError, noDataMsg fname⟩ ↔ dls = [])
  ∧ (read_lcr_csv_lcr6300 fname true lines num_freq trim cn fci scale
        = .error ⟨.valueError, noNumericMsg fname⟩ ↔ (dls ≠ [] ∧ vals = []))
  ∧ (read_lcr_csv_lcr6300 fname true lines num_freq trim cn fci scale
        = .error ⟨.valueError, reshapeMsg fname vals2.length num_freq⟩
      ↔ (vals ≠ [] ∧ vals.length / num_freq = 0 ∧ vals2.length / num_freq = 0))
  ∧ (∀ e, read_lcr_csv_lcr6300 fname true lines num_freq trim cn fci scale = .error e →
      fname.data <:+: e.msg.data) := by
  have hnil : dls = [] → vals = [] := by
    intro h0
    rw [h0] at hvals
    exact hvals.symm
  have hres :
      (dls = [] ∧ read_lcr_csv_lcr6300 fname true lines num_freq trim cn fci scale
          = .error ⟨.valueError, noDataMsg fname⟩)
    ∨ (dls ≠ [] ∧ vals = []
        ∧ read_lcr_csv_lcr6300 fname true lines num_freq trim cn fci scale
            = .error ⟨.valueError, noNumericMsg fname⟩)
    ∨ (dls ≠ [] ∧ vals ≠ [] ∧ vals.length / num_freq = 0 ∧ vals2.length / num_freq = 0
        ∧ read_lcr_csv_lcr6300 fname true lines num_freq trim cn fci scale
            = .error ⟨.valueError, reshapeMsg fname vals2.length num_freq⟩)
    ∨ (dls ≠ [] ∧ vals ≠ []
        ∧ ¬(vals.length / num_freq = 0 ∧ vals2.length / num_freq = 0)
        ∧ ∃ w, read_lcr_csv_lcr6300 fname true lines num_freq trim cn fci scale = .ok w) := by
    by_cases hd : dls = []
    · exact Or.inl ⟨hd, by simp [read_lcr_csv_lcr6300, hdls, hd]⟩
    · by_cases hv : vals = []
      · exact Or.inr (Or.inl ⟨hd, hv, by
          simp [read_lcr_csv_lcr6300, hdls, hvals, List.isEmpty_iff, hd, hv]⟩)
      · by_cases h0 : vals.length / num_freq = 0
        · by_cases h2 : vals2.length / num_freq = 0
          · refine Or.inr (Or.inr (Or.inl ⟨hd, hv, h0, h2, ?_⟩))
            simp [read_lcr_csv_lcr6300, hdls, hvals, ← hvals2, List.isEmpty_iff, hd, hv,
              h0, h2]
          · refine Or.inr (Or.inr (Or.inr ⟨hd, hv, by simp [h0, h2], ?_⟩))
            refine ⟨reshapeAvg vals2 (vals2.length / num_freq) num_freq scale, ?_⟩
            simp [read_lcr_csv_lcr6300, hdls, hvals, ← hvals2, List.isEmpty_iff, hd, hv,
              h0, h2]
        · refine Or.inr (Or.inr (Or.inr ⟨hd, hv, by simp [h0], ?_⟩))
          refine ⟨reshapeAvg vals (vals.length / num_freq) num_freq scale, ?_⟩
          simp [read_lcr_csv_lcr6300, hdls, hvals, List.isEmpty_iff, hd, hv, h0]
  refine ⟨?_, ?_, ?_, ?_⟩
  · constructor
    · intro h
      rcases hres with ⟨hd, _⟩ | ⟨_, _, hp⟩ | ⟨_, _, _, _, hp⟩ | ⟨_, _, _, w, hp⟩
      · exact hd
      · rw [hp, Except.error.injEq, PyExc.mk.injEq] at h
        exact absurd h.2.symm (noData_ne_noNumeric fname fname)
      · rw [hp, Except.error.injEq, PyExc.mk.injEq] at h
        exact absurd h.2.symm (noData_ne_reshape fname fname vals2.length num_freq)
      · rw [hp] at h
        exact Except.noConfusion h
    · intro hd
      rcases hres with ⟨_, hp⟩ | ⟨hd', _, _⟩ | ⟨hd', _, _⟩ | ⟨hd', _⟩
      · exact hp
      · exact absurd hd hd'
      · exact absurd hd hd'
      · exact absurd hd hd'
  · constructor
    · intro h
      rcases hres with ⟨hd, hp⟩ | ⟨hd, hv, _⟩ | ⟨_, _, _, _, hp⟩ | ⟨_, _, _, w, hp⟩
      · rw [hp, Except.error.injEq, PyExc.mk.injEq] at h
        exact absurd h.2 (noData_ne_noNumeric fname fname)
      · exact ⟨hd, hv⟩
      · rw [hp, Except.error.injEq, PyExc.mk.injEq] at h
        exact absurd h.2.symm (noNumeric_ne_reshape fname fname vals2.length num_freq)
      · rw [hp] at h
        exact Except.noConfusion h
    · rintro ⟨hd, hv⟩
      rcases hres with ⟨hd', _⟩ | ⟨_, _, hp⟩ | ⟨_, hv', _⟩ | ⟨_, hv', _⟩
      · exact absurd hd' hd
      · exact hp
      · exact absurd hv hv'
      · exact absurd hv hv'
  · constructor
    · intro h
      rcases hres with ⟨hd, hp⟩ | ⟨_, _, hp⟩ | ⟨_, hv, h0, h2, _⟩ | ⟨_, _, _, w, hp⟩
      · rw [hp, Except.error.injEq, PyExc.mk.injEq] at h
        exact absurd h.2 (noData_ne_reshape fname fname vals2.length num_freq)
      · rw [hp, Except.error.injEq, PyExc.mk.injEq] at h
        exact absurd h.2 (noNumeric_ne_reshape fname fname vals2.length num_freq)
      · exact ⟨hv, h0, h2⟩
      · rw [hp] at h
        exact Except.noConfusion h
    · rintro ⟨hv, h0, h2⟩
      rcases hres with ⟨hd', _⟩ | ⟨_, hv', _⟩ | ⟨_, _, _, _, hp⟩ | ⟨_, _, hne, _⟩
      · exact absurd (hnil hd') hv
      · exact absurd hv' hv
      · exact hp
      · exact absurd ⟨h0, h2⟩ hne
  · intro e he
    rcases hres with ⟨_, hp⟩ | ⟨_, _, hp⟩ | ⟨_, _, _, _, hp⟩ | ⟨_, _, _, w, hp⟩
    · rw [hp, Except.error.injEq] at he
      rw [← he]
      exact fname_infix_noData fname
    · rw [hp, Except.error.injEq] at he
      rw [← he]
      exact fname_infix_noNumeric fname
    · rw [hp, Except.error.injEq] at he
      rw [← he]
      exact fname_infix_reshape fname vals2.length num_freq
    · rw [hp] at he
      exact Except.noConfusion he

/-- C7 witness: on an empty file the parse fails with exactly the
no-data ValueError (the candidate set is empty). -/
theorem c7_witness :
    read_lcr_csv_lcr6300 "a.csv" true [] 10 none "Z(OHM)".data 2 1
      = .error ⟨.valueError, noDataMsg "a.csv"⟩ ↔ ([] : List Str) = [] :=
  (c7_error_taxonomy "a.csv" [] 10 none "Z(OHM)".data 2 1 [] [] [] rfl rfl rfl).1

/-- C9: whenever the initial repeat count `len(values) / num_freq` is
zero, the parse raises the reshape error for EVERY value of
`trim_first_n` (absent, small, or at least `num_freq`): truncating to a
prefix can never increase the value count, so the recovery branch can
never convert this failure into a success. -/
theorem c9_trim_never_helps (fname : String) (lines : List Str) (num_freq : ℕ)
    (cn : Str) (fci : ℕ) (scale : ℚ) (vals : List ℚ)
    (hvals : extractValues (collectData lines (findHeader lines cn))
        (decideCol lines (findHeader lines cn) cn fci) = vals)
    (hvne : vals ≠ []) (h0 : vals.length / num_freq = 0) :
    ∀ trim : Option ℕ, ∃ l,
      read_lcr_csv_lcr6300 fname true lines num_freq trim cn fci scale
        = .error ⟨.valueError, reshapeMsg fname l num_freq⟩ := by
  have hdl : collectData lines (findHeader lines cn) ≠ [] := by
    intro hc
    rw [hc] at hvals
    exact hvne (hvals ▸ rfl)
  intro trim
  cases trim with
  | none =>
    refine ⟨vals.length, ?_⟩
    simp [read_lcr_csv_lcr6300, hvals, List.isEmpty_iff, hdl, hvne, h0]
  | some n =>
    have h2 : (n ⊓ vals.length) / num_freq = 0 :=
      Nat.eq_zero_of_le_zero (le_trans (Nat.div_le_div_right inf_le_right) (le_of_eq h0))
    refine ⟨(vals.take n).length, ?_⟩
    simp [read_lcr_csv_lcr6300, hvals, List.isEmpty_iff, hdl, hvne, h0, h2,
      List.length_take]

/-- C9 witness: one parsed value with `num_freq = 10` fails with the
reshape error even with `trim_first_n = 100` supplied. -/
theorem c9_witness : ∃ l,
    read_lcr_csv_lcr6300 "a.csv" true ["+1".data] 10 (some 100) "Z".data 0 1
      = .error ⟨.valueError, reshapeMsg "a.csv" l 10⟩ :=
  c9_trim_never_helps "a.csv" ["+1".data] 10 "Z".data 0 1 [1]
    (by
      have h1 : collectData ["+1".data] (findHeader ["+1".data] "Z".data)
          = ["+1".data] := by decide
      have h2 : decideCol ["+1".data] (findHeader ["+1".data] "Z".data) "Z".data 0 = 0 := by
        decide
      rw [h1, h2]
      simp +decide [extractValues, lineValue, parsePyFloat, parseMantissa, parseDigits,
        digitsVal, pySpan, pyStrip])
    (by simp) (by simp) (some 100)

/-- C10: every failure of the parser on an existing file is a ValueError
(the three data failures share the exception class and differ only in
message), the missing-file failure alone is a FileNotFoundError, and two
different data failures are exhibited whose exception types coincide
while their messages differ, so type alone cannot separate them. -/
theorem c10_exception_types :
    (∀ (fname : String) (lines : List Str) (num_freq : ℕ) (trim : Option ℕ)
        (cn : Str) (fci : ℕ) (scale : ℚ) (e : PyExc),
        read_lcr_csv_lcr6300 fname true lines num_freq trim cn fci scale = .error e →
          e.ty = .valueError)
  ∧ (∀ (fname : String) (lines : List Str) (num_freq : ℕ) (trim : Option ℕ)
        (cn : Str) (fci : ℕ) (scale : ℚ),
        read_lcr_csv_lcr6300 fname false lines num_freq trim cn fci scale
          = .error ⟨.fileNotFoundError, fname⟩)
  ∧ (∃ e₁ e₂ : PyExc,
      read_lcr_csv_lcr6300 "a.csv" true [] 10 none "Z(OHM)".data 2 1 = .error e₁
        ∧ read_lcr_csv_lcr6300 "a.csv" true ["+1".data] 10 none "Z".data 0 1 = .error e₂
        ∧ e₁.ty = e₂.ty ∧ e₁.msg ≠ e₂.msg) := by
  refine ⟨?_, ?_, ?_⟩
  · intro fname lines num_freq trim cn fci scale e h
    simp only [read_lcr_csv_lcr6300] at h
    rw [if_neg (by simp)] at h
    split at h
    · rw [Except.error.injEq] at h
      subst h
      rfl
    · split at h
      · rw [Except.error.injEq] at h
        subst h
        rfl
      · split at h
        · split at h
          · rw [Except.error.injEq] at h
            subst h
            rfl
          · exact absurd h (by simp)
        · exact absurd h (by simp)
  · intro fname lines num_freq trim cn fci scale
    simp [read_lcr_csv_lcr6300]
  · refine ⟨⟨.valueError, noDataMsg "a.csv"⟩, ⟨.valueError, reshapeMsg "a.csv" 1 10⟩,
      ?_, ?_, rfl, noData_ne_reshape "a.csv" "a.csv" 1 10⟩
    · have h1 : collectData [] (findHeader [] "Z(OHM)".data) = [] := by decide
      simp [read_lcr_csv_lcr6300, h1]
    · have h1 : collectData ["+1".data] (findHeader ["+1".data] "Z".data)
          = ["+1".data] := by decide
      have h2 : decideCol ["+1".data] (findHeader ["+1".data] "Z".data) "Z".data 0 = 0 := by
        decide
      have h3 : extractValues ["+1".data] 0 = [1] := by
        simp +decide [extractValues, lineValue, parsePyFloat, parseMantissa, parseDigits,
          digitsVal, pySpan, pyStrip]
      simp [read_lcr_csv_lcr6300, h1, h2, h3]

/-- C10 witness: the concrete no-data failure carries exception type
ValueError. -/
theorem c10_witness :
    (⟨ExcType.valueError, noDataMsg "a.csv"⟩ : PyExc).ty = ExcType.valueError :=
  c10_exception_types.1 "a.csv" [] 10 none "Z(OHM)".data 2 1
    ⟨.valueError, noDataMsg "a.csv"⟩
    (by
      have h1 : collectData [] (findHeader [] "Z(OHM)".data) = [] := by decide
      simp [read_lcr_csv_lcr6300, h1])

/-- C8: the batch loop skips configured files that do not exist, drops
files whose parse raises, and when nothing at all loads the result is
exactly the synthetic placeholder set: the baseline `20 + 0.3 * freq`
over the fixed 10-value frequency axis plus its 1.25- and 0.9-scaled
variants. -/
theorem c8_batch_fallback :
    (∀ (n : String) (rest : List FileEntry),
        batchLoad (⟨n, none⟩ :: rest) = batchLoad rest)
  ∧ (∀ (n : String) (ls : List Str) (e : PyExc) (rest : List FileEntry),
        read_lcr_csv_lcr6300 n true ls 10 (some 100) "Z(OHM)".data 2 (1 / 1000)
            = .error e →
        batchLoad (⟨n, some ls⟩ :: rest) = batchLoad rest)
  ∧ (∀ files : List FileEntry, batchLoad files = [] → loaded files = demoLoaded)
  ∧ freq = [10, 20, 30, 40, 50, 60, 70, 80, 90, 100]
  ∧ demoLoaded =
      [("demo_baseline", freq.map (fun f => 20 + 0.3 * f)),
       ("demo_postwash", freq.map (fun f => (20 + 0.3 * f) * 1.25)),
       ("demo_hydrogel", freq.map (fun f => (20 + 0.3 * f) * 0.9))] := by
  refine ⟨fun n rest => rfl, ?_, ?_, ?_, ?_⟩
  · intro n ls e rest he
    simp only [batchLoad, List.foldl_cons, he]
  · intro files h
    rw [loaded, if_pos h]
  · norm_num [freq, List.range_succ]
  · simp [demoLoaded, base, List.map_map, Function.comp]

/-- C8 witness: a batch whose only configured file is missing yields
exactly the synthetic placeholder set. -/
theorem c8_witness : loaded [⟨"LIST0423.CSV", none⟩] = demoLoaded :=
  c8_batch_fallback.2.2.1 [⟨"LIST0423.CSV", none⟩] rfl

end LCR
